import Mathlib

/-!
Verification of `gramex/cache.py`: the file-backed memoization engine
(`open`), the SQL query cache (`query`, `_table_status`, `_wheres`), the
module hot-reload tracker (`reload_module`) and the per-stream reader
loops of `Subprocess.__init__`, shallowly embedded as executable Lean
functions and proved against the claims of the specification.
-/

set_option autoImplicit false

namespace GramexCache

/-! ## Association-list maps

Python dicts used as caches (`_OPEN_CACHE`, `_QUERY_CACHE`,
`_STATUS_METHODS`, `_MODULE_CACHE`) are embedded as association lists
with lookup and wholesale replacement. -/

def alookup {α β : Type} [DecidableEq α] : List (α × β) → α → Option β
  | [], _ => none
  | (k, v) :: rest, key => if k = key then some v else alookup rest key

def aupdate {α β : Type} [DecidableEq α] : List (α × β) → α → β → List (α × β)
  | [], key, val => [(key, val)]
  | (k, v) :: rest, key, val =>
      if k = key then (key, val) :: rest else (k, v) :: aupdate rest key val

theorem alookup_aupdate_self {α β : Type} [DecidableEq α]
    (l : List (α × β)) (k : α) (v : β) : alookup (aupdate l k v) k = some v := by
  induction l with
  | nil => simp [alookup, aupdate]
  | cons hd tl ih =>
      obtain ⟨k', v'⟩ := hd
      by_cases h : k' = k
      · simp [alookup, aupdate, h]
      · simp [alookup, aupdate, h, ih]

/-! ## File stat tokens

`stat(path)` returns `(st_mtime, st_size)` when the file exists and
`(None, None)` otherwise.  We embed the token as `Option (Nat × Nat)`
(`none` is the absent sentinel) and take the filesystem itself as a
function parameter `fs : String → FStat`. -/

abbrev FStat := Option (Nat × Nat)

/-! ## The `open` file cache

`gramex.cache.open(path, callback, transform=None, ...)` keyed by
`(path, callback if callback is a str else id(callback))`. The callback
is a string looked up in `_CALLBACKS`, a callable, or anything else
(which is a configuration error). The registry `_CALLBACKS` delegates to
external parsing libraries, so it is a function parameter
`cbs : String → Option (String → Except String V)`; a loader or
transform that raises is embedded as returning `Except.error`. -/

inductive CBKey where
  | name (s : String)
  | ident (n : Nat)
deriving DecidableEq

inductive Callback (V : Type) where
  /-- a predefined string loader name -/
  | str (s : String)
  /-- a callable loader; `id` models CPython `id(callback)` -/
  | fn (id : Nat) (f : String → Except String V)
  /-- neither callable nor a string; `id` models `id(callback)` -/
  | other (id : Nat)

/-- the key component: callback itself when it is a str, else id(callback) -/
def cbKey {V : Type} : Callback V → CBKey
  | .str s => .name s
  | .fn i _ => .ident i
  | .other i => .ident i

structure OpenEntry (V : Type) where
  data : V
  fstat : FStat

abbrev OpenCache (V : Type) := List ((String × CBKey) × OpenEntry V)

inductive OpenErr where
  /-- the TypeError raised for a string callback that is not a known type -/
  | unknownLoaderKind (s : String)
  /-- the TypeError raised for a callback that must be a function but is not -/
  | invalidLoaderType
  /-- an exception raised by the loader or the transform, propagated -/
  | loaderFailed (msg : String)
deriving DecidableEq

/-- The callable / string / otherwise dispatch of `open`: run a callable
on the path, look a string up in the registry, else fail. -/
def runCallback {V : Type} (cbs : String → Option (String → Except String V))
    (cb : Callback V) (path : String) : Except OpenErr V :=
  match cb with
  | .fn _ f =>
      match f path with
      | .ok v => .ok v
      | .error m => .error (.loaderFailed m)
  | .str s =>
      match cbs s with
      | some m =>
          match m path with
          | .ok v => .ok v
          | .error msg => .error (.loaderFailed msg)
      | none => .error (.unknownLoaderKind s)
  | .other _ => .error .invalidLoaderType

/-- When the transform is callable it is applied to the data; a
non-callable transform (None) leaves the data unchanged. -/
def applyTransform {V : Type} (t : Option (V → Except String V)) (v : V) :
    Except OpenErr V :=
  match t with
  | none => .ok v
  | some f =>
      match f v with
      | .ok w => .ok w
      | .error m => .error (.loaderFailed m)

/-- Whether the reload branch actually applies a loader function (the
callable itself, or a registered named loader) before any result. -/
def invokesLoader {V : Type} (cbs : String → Option (String → Except String V)) :
    Callback V → Bool
  | .fn _ _ => true
  | .str s => (cbs s).isSome
  | .other _ => false

/-- The reload branch of `open`, taken when no entry is cached or the
stored stat differs from the current one: run the callback, apply the
transform, store the data with the current stat, return reloaded = true. -/
def gopenReload {V : Type} (fs : String → FStat)
    (cbs : String → Option (String → Except String V)) (cache : OpenCache V)
    (path : String) (cb : Callback V) (transform : Option (V → Except String V)) :
    (Except OpenErr (V × Bool)) × OpenCache V × Bool :=
  let key := (path, cbKey cb)
  let fstat := fs path
  let inv := invokesLoader cbs cb
  match runCallback cbs cb path with
  | .error e => (.error e, cache, inv)
  | .ok data =>
      match applyTransform transform data with
      | .error e => (.error e, cache, inv)
      | .ok data2 => (.ok (data2, true), aupdate cache key ⟨data2, fstat⟩, inv)

/-- Embedding of `gramex.cache.open` (named `gopen`: `open` is a Lean
keyword).  Returns the `(result, reloaded)` pair of `_reload_status=True`
mode, the cache after the call, and whether a loader was invoked.  The
`rel=` stack inspection is outside the claims; `path` is the final path. -/
def gopen {V : Type} (fs : String → FStat)
    (cbs : String → Option (String → Except String V)) (cache : OpenCache V)
    (path : String) (cb : Callback V) (transform : Option (V → Except String V)) :
    (Except OpenErr (V × Bool)) × OpenCache V × Bool :=
  let key := (path, cbKey cb)
  let fstat := fs path
  -- reload iff cached is None or fstat differs from the stored stat
  match alookup cache key with
  | none => gopenReload fs cbs cache path cb transform
  | some e =>
      if fstat = e.fstat then (.ok (e.data, false), cache, false)
      else gopenReload fs cbs cache path cb transform

/-- A callback run that succeeds means a loader function was applied. -/
theorem invokesLoader_of_ok {V : Type} (cbs : String → Option (String → Except String V))
    (cb : Callback V) (path : String) (v : V)
    (h : runCallback cbs cb path = .ok v) : invokesLoader cbs cb = true := by
  cases cb with
  | fn i f => rfl
  | str s =>
      cases hm : cbs s with
      | none => simp [runCallback, hm] at h
      | some m => simp [invokesLoader, hm]
  | other i => simp [runCallback] at h

/-- C1: `open` invokes the loader and replaces the entry wholesale exactly
when the key is absent or the stored stat token differs from the current
one (reloaded = true); otherwise it returns the stored value unchanged
without invoking the loader (reloaded = false); and a repeated call with
an unchanged file returns the same value with reloaded = false. -/
theorem open_cache_decision {V : Type} (fs : String → FStat)
    (cbs : String → Option (String → Except String V)) (cache : OpenCache V)
    (path : String) (cb : Callback V) (transform : Option (V → Except String V))
    (v w : V) (hrun : runCallback cbs cb path = .ok v)
    (htr : applyTransform transform v = .ok w) :
    (alookup cache (path, cbKey cb) = none →
      gopen fs cbs cache path cb transform =
        (.ok (w, true), aupdate cache (path, cbKey cb) ⟨w, fs path⟩, true))
    ∧ (∀ e, alookup cache (path, cbKey cb) = some e → fs path ≠ e.fstat →
      gopen fs cbs cache path cb transform =
        (.ok (w, true), aupdate cache (path, cbKey cb) ⟨w, fs path⟩, true))
    ∧ (∀ e, alookup cache (path, cbKey cb) = some e → fs path = e.fstat →
      gopen fs cbs cache path cb transform = (.ok (e.data, false), cache, false))
    ∧ (∀ r rl c2 inv, gopen fs cbs cache path cb transform = (.ok (r, rl), c2, inv) →
      gopen fs cbs c2 path cb transform = (.ok (r, false), c2, false)) := by
  have hinv := invokesLoader_of_ok cbs cb path v hrun
  refine ⟨?_, ?_, ?_, ?_⟩
  · intro hnone
    simp [gopen, gopenReload, hnone, hrun, htr, hinv]
  · intro e he hne
    simp [gopen, gopenReload, he, hne, hrun, htr, hinv]
  · intro e he heq
    simp [gopen, he, heq]
  · intro r rl c2 inv hfirst
    match hl : alookup cache (path, cbKey cb) with
    | none =>
        have hcall : gopen fs cbs cache path cb transform =
            (.ok (w, true), aupdate cache (path, cbKey cb) ⟨w, fs path⟩,
             invokesLoader cbs cb) := by
          simp [gopen, gopenReload, hl, hrun, htr]
        rw [hcall] at hfirst
        simp only [Prod.mk.injEq, Except.ok.injEq] at hfirst
        obtain ⟨⟨hw, hrl⟩, hc2, hi⟩ := hfirst
        subst hw
        subst hc2
        simp [gopen, alookup_aupdate_self]
    | some e =>
        by_cases heq : fs path = e.fstat
        · have hcall : gopen fs cbs cache path cb transform =
              (.ok (e.data, false), cache, false) := by
            simp [gopen, hl, heq]
          rw [hcall] at hfirst
          simp only [Prod.mk.injEq, Except.ok.injEq] at hfirst
          obtain ⟨⟨hr, hrl⟩, hc2, hi⟩ := hfirst
          subst hr
          subst hc2
          exact hcall
        · have hcall : gopen fs cbs cache path cb transform =
              (.ok (w, true), aupdate cache (path, cbKey cb) ⟨w, fs path⟩,
               invokesLoader cbs cb) := by
            simp [gopen, gopenReload, hl, heq, hrun, htr]
          rw [hcall] at hfirst
          simp only [Prod.mk.injEq, Except.ok.injEq] at hfirst
          obtain ⟨⟨hw, hrl⟩, hc2, hi⟩ := hfirst
          subst hw
          subst hc2
          simp [gopen, alookup_aupdate_self]

/-- C1 witness: a concrete first call loads and stores, a repeated call
with the unchanged file returns the cached value with reloaded = false. -/
theorem open_cache_decision_witness :
    gopen (fun _ => (some (5, 10) : FStat))
        (fun _ => (none : Option (String → Except String Nat))) []
        "data.csv" (Callback.fn 1 (fun _ => Except.ok 7)) none
      = (.ok (7, true),
         aupdate [] ("data.csv", CBKey.ident 1) (OpenEntry.mk 7 (some (5, 10))), true)
    ∧ gopen (fun _ => (some (5, 10) : FStat))
        (fun _ => (none : Option (String → Except String Nat)))
        (aupdate [] ("data.csv", CBKey.ident 1) (OpenEntry.mk 7 (some (5, 10))))
        "data.csv" (Callback.fn 1 (fun _ => Except.ok 7)) none
      = (.ok (7, false),
         aupdate [] ("data.csv", CBKey.ident 1) (OpenEntry.mk 7 (some (5, 10))), false) := by
  have h := open_cache_decision (fun _ => (some (5, 10) : FStat))
    (fun _ => (none : Option (String → Except String Nat))) []
    "data.csv" (Callback.fn 1 (fun _ => Except.ok 7)) none 7 7 rfl rfl
  exact ⟨h.1 rfl, h.2.2.2 7 true _ true (h.1 rfl)⟩

/-- C4: with no entry at the key, `open` with an unregistered string
loader fails with the unknown-loader error, and with a loader that is
neither callable nor a string fails with the invalid-loader-type error;
in both cases no loader runs and the cache is returned unchanged. -/
theorem open_config_errors {V : Type} (fs : String → FStat)
    (cbs : String → Option (String → Except String V)) (cache : OpenCache V)
    (path : String) (transform : Option (V → Except String V)) :
    (∀ s, cbs s = none → alookup cache (path, CBKey.name s) = none →
      gopen fs cbs cache path (Callback.str s) transform
        = (.error (.unknownLoaderKind s), cache, false))
    ∧ (∀ i, alookup cache (path, CBKey.ident i) = none →
      gopen fs cbs cache path (Callback.other i) transform
        = (.error .invalidLoaderType, cache, false)) := by
  constructor
  · intro s hs hnone
    simp [gopen, gopenReload, runCallback, invokesLoader, cbKey, hs, hnone]
  · intro i hnone
    simp [gopen, gopenReload, runCallback, invokesLoader, cbKey, hnone]

/-- C4 witness: `open(path, "unknownformat")` and `open(path, 42)` on an
empty cache fail fast with the two configuration errors. -/
theorem open_config_errors_witness :
    gopen (fun _ => (some (5, 10) : FStat))
        (fun _ => (none : Option (String → Except String Nat))) []
        "x.csv" (Callback.str "unknownformat") none
      = (.error (.unknownLoaderKind "unknownformat"), [], false)
    ∧ gopen (fun _ => (some (5, 10) : FStat))
        (fun _ => (none : Option (String → Except String Nat))) []
        "x.csv" (Callback.other 42) none
      = (.error .invalidLoaderType, [], false) := by
  have h := open_config_errors (fun _ => (some (5, 10) : FStat))
    (fun _ => (none : Option (String → Except String Nat))) [] "x.csv" none
  exact ⟨h.1 "unknownformat" rfl rfl, h.2 42 rfl⟩

/-- C9: whenever `open` propagates an error — in particular when the
loader or the transform raises on a key that is absent or stale — the
cache is returned exactly as it was: no entry created, none replaced. -/
theorem open_exception_safety {V : Type} (fs : String → FStat)
    (cbs : String → Option (String → Except String V)) (cache : OpenCache V)
    (path : String) (cb : Callback V) (transform : Option (V → Except String V)) :
    (∀ err c2 inv, gopen fs cbs cache path cb transform = (.error err, c2, inv) →
      c2 = cache)
    ∧ (∀ m, runCallback cbs cb path = .error (.loaderFailed m) →
      (∀ e, alookup cache (path, cbKey cb) = some e → fs path ≠ e.fstat) →
      (gopen fs cbs cache path cb transform).1 = .error (.loaderFailed m))
    ∧ (∀ v m, runCallback cbs cb path = .ok v →
      applyTransform transform v = .error (.loaderFailed m) →
      (∀ e, alookup cache (path, cbKey cb) = some e → fs path ≠ e.fstat) →
      (gopen fs cbs cache path cb transform).1 = .error (.loaderFailed m)) := by
  refine ⟨?_, ?_, ?_⟩
  · intro err c2 inv h
    match hl : alookup cache (path, cbKey cb) with
    | none =>
        simp only [gopen, gopenReload, hl] at h
        match hr : runCallback cbs cb path with
        | .error e =>
            simp only [hr, Prod.mk.injEq] at h
            exact h.2.1.symm
        | .ok data =>
            simp only [hr] at h
            match ht : applyTransform transform data with
            | .error e =>
                simp only [ht, Prod.mk.injEq] at h
                exact h.2.1.symm
            | .ok d2 => simp [ht] at h
    | some e =>
        by_cases heq : fs path = e.fstat
        · simp [gopen, hl, heq] at h
        · simp only [gopen, gopenReload, hl, heq, ite_false] at h
          match hr : runCallback cbs cb path with
          | .error er =>
              simp only [hr, Prod.mk.injEq] at h
              exact h.2.1.symm
          | .ok data =>
              simp only [hr] at h
              match ht : applyTransform transform data with
              | .error er =>
                  simp only [ht, Prod.mk.injEq] at h
                  exact h.2.1.symm
              | .ok d2 => simp [ht] at h
  · intro m hr hstale
    match hl : alookup cache (path, cbKey cb) with
    | none => simp [gopen, gopenReload, hl, hr]
    | some e => simp [gopen, gopenReload, hl, hr, if_neg (hstale e hl)]
  · intro v m hr ht hstale
    match hl : alookup cache (path, cbKey cb) with
    | none => simp [gopen, gopenReload, hl, hr, ht]
    | some e => simp [gopen, gopenReload, hl, hr, ht, if_neg (hstale e hl)]

/-- C9 witness: a loader that raises on a stale entry propagates the
error and the call leaves the old entry in place. -/
theorem open_exception_safety_witness :
    (gopen (fun _ => (some (5, 10) : FStat))
        (fun _ => (none : Option (String → Except String Nat)))
        [(("f.txt", CBKey.ident 1), OpenEntry.mk 9 (some (1, 1)))]
        "f.txt" (Callback.fn 1 (fun _ => Except.error "boom")) none).1
      = .error (.loaderFailed "boom") := by
  have h := open_exception_safety (fun _ => (some (5, 10) : FStat))
    (fun _ => (none : Option (String → Except String Nat)))
    [(("f.txt", CBKey.ident 1), OpenEntry.mk 9 (some (1, 1)))]
    "f.txt" (Callback.fn 1 (fun _ => Except.error "boom")) none
  refine h.2.1 "boom" rfl ?_
  intro e he
  simp [alookup, cbKey] at he
  rw [← he]
  simp

/-! ## The `query` SQL cache

`gramex.cache.query(sql, engine, state, ...)` keyed by
`(sql, engine.url)`.  The engine is embedded as its dialect name, a
connection identity for `engine.url`, its default database
`engine.url.database`, and oracles for `pd.read_sql` and the
to-json / to-dict conversions of a DataFrame.
A table name in a state list is a Python value: a string or something
else (`SqlName.nonStr`). -/

inductive SqlName where
  | str (s : String)
  | nonStr
deriving DecidableEq

/-- whether a table name is falsy or not a string -/
def badName : SqlName → Bool
  | .str s => s = ""
  | .nonStr => true

def nameStr : SqlName → String
  | .str s => s
  | .nonStr => ""

inductive QErr where
  /-- the ValueError raised for an empty or invalid table list -/
  | invalidTableList
  /-- the KeyError raised for memory sqlite, which is not supported -/
  | unsupportedDatabase
  /-- the KeyError raised for a dialect that cannot be cached yet -/
  | unsupportedDialect
  /-- the TypeError raised when state must be a table list, query or fn -/
  | invalidStateSpec
  /-- the ValueError from unpacking a three-part rsplit into two targets -/
  | unpackMismatch
  /-- the KeyError from indexing the cache when the key is absent -/
  | keyError
deriving DecidableEq

/-- Full split of a character list at every separator occurrence, the
helper behind the Python `rsplit` embedding. -/
def splitDot : List Char → List (List Char)
  | [] => [[]]
  | c :: rest =>
      match splitDot rest with
      | [] => [[]]
      | h :: t => if c = '.' then [] :: h :: t else (c :: h) :: t

/-- Python rsplit on the dot separator: split from the right at most
`maxsplit` times, so the head keeps any earlier separators. -/
def rsplitDot (s : String) (maxsplit : Nat) : List String :=
  let parts := (splitDot s.toList).map (fun cs => String.mk cs)
  if parts.length ≤ maxsplit + 1 then parts
  else String.intercalate "." (parts.take (parts.length - maxsplit)) ::
       parts.drop (parts.length - maxsplit)

/-- Python membership test of the dot character in a name -/
def containsDot (s : String) : Bool :=
  s.toList.any (fun c => c = '.')

/-- The (db, table) unpacking of a name: rsplit with maxsplit 2 when the
name has a dot, else the default database with the bare name.  Unpacking
a list that is not exactly a pair raises ValueError. -/
def splitName (default_db : String) (name : String) : Except QErr (String × String) :=
  if containsDot name then
    match rsplitDot name 2 with
    | [db, table] => .ok (db, table)
    | _ => .error .unpackMismatch
  else .ok (default_db, name)

/-- a single-quote character, for the SQL string quoting in `_wheres` -/
def sq : String := String.singleton (Char.ofNat 39)

/-- Python str formatting of the database name, which may be None -/
def pyStr : Option String → String
  | some d => d
  | none => "None"

/-- Embedding of the source function building the OR-joined WHERE clause
over the (database, table) pairs, with optional wrapping functions. -/
def _wheres (dbkey tablekey default_db : String) (names : List String)
    (fn : Option (String × String)) : Except QErr String := do
  let clauses ← names.mapM (fun name => do
    let dt ← splitName default_db name
    match fn with
    | none =>
        pure ("(" ++ dbkey ++ "=" ++ sq ++ dt.1 ++ sq ++ " AND " ++
              tablekey ++ "=" ++ sq ++ dt.2 ++ sq ++ ")")
    | some f =>
        pure ("(" ++ dbkey ++ "=" ++ f.1 ++ "(" ++ sq ++ dt.1 ++ sq ++ ")" ++
              " AND " ++ tablekey ++ "=" ++ f.2 ++ "(" ++ sq ++ dt.2 ++ sq ++ "))"))
  pure (String.intercalate " OR " clauses)

structure Engine (R : Type) where
  dialect : String
  urlId : Nat
  database : Option String
  runSql : String → R
  toJson : R → String
  toDict : R → String

/-- The freshness token of `query`: a Python value compared by `!=`.
`pyNone` is Python `None`, which is also the "no stored status" default. -/
inductive Status where
  | pyNone
  | jsonOf (s : String)
  | dictOf (s : String)
  | statOf (f : FStat)
  | val (s : String)
deriving DecidableEq

/-- What `_STATUS_METHODS[key]` memoizes: either a probe SQL statement or
the sqlite database file whose stat is taken. -/
inductive Probe where
  | sqlProbe (q : String)
  | fileProbe (path : String)
deriving DecidableEq

abbrev StatusMethods := List ((Nat × List SqlName) × Probe)

/-- First-time construction of the probe for a key, from `_table_status`:
validation of the table list, then the dialect dispatch. -/
def buildProbe {R : Type} (eng : Engine R) (tables : List SqlName) :
    Except QErr Probe :=
  if tables.length = 0 then .error .invalidTableList
  else if tables.any badName then .error .invalidTableList
  else
    let names := tables.map nameStr
    if eng.dialect = "mysql" then do
      let w ← _wheres "table_schema" "table_name" (pyStr eng.database) names none
      .ok (.sqlProbe ("SELECT update_time FROM information_schema.tables WHERE " ++ w))
    else if eng.dialect = "mssql" then do
      let w ← _wheres "database_id" "object_id" (pyStr eng.database) names
        (some ("DB_ID", "OBJECT_ID"))
      .ok (.sqlProbe ("SELECT last_user_update FROM sys.dm_db_index_usage_stats WHERE " ++ w))
    else if eng.dialect = "postgresql" then do
      let w ← _wheres "schemaname" "relname" "public" names none
      .ok (.sqlProbe ("SELECT n_tup_ins, n_tup_upd, n_tup_del FROM pg_stat_all_tables WHERE " ++ w))
    else if eng.dialect = "sqlite" then
      match eng.database with
      | none => .error .unsupportedDatabase
      | some d => if d = "" then .error .unsupportedDatabase else .ok (.fileProbe d)
    else .error .unsupportedDialect

/-- Invoking the memoized probe always re-queries: the probe SQL is
executed and JSON-serialized, or the database file is stat-ed again.  Also
returns the SQL statements executed. -/
def runProbe {R : Type} (fs : String → FStat) (eng : Engine R) :
    Probe → Status × List String
  | .sqlProbe q => (Status.jsonOf (eng.toJson (eng.runSql q)), [q])
  | .fileProbe p => (Status.statOf (fs p), [])

/-- Embedding of `_table_status(engine, tables)`: build and memoize the
probe on the first call for `(engine.url, tuple(tables))`, then invoke it. -/
def _table_status {R : Type} (fs : String → FStat) (eng : Engine R)
    (methods : StatusMethods) (tables : List SqlName) :
    Except QErr (Status × StatusMethods × List String) :=
  let key := (eng.urlId, tables)
  match alookup methods key with
  | some probe =>
      let r := runProbe fs eng probe
      .ok (r.1, methods, r.2)
  | none =>
      match buildProbe eng tables with
      | .error e => .error e
      | .ok probe =>
          let r := runProbe fs eng probe
          .ok (r.1, aupdate methods key probe, r.2)

/-- The three recognized shapes of the state argument of `query`, plus
the unrecognized shape that raises TypeError. -/
inductive StateSpec where
  | tables (ts : List SqlName)
  | probeSql (q : String)
  | probeFn (f : Unit → Status)
  | invalid

structure QEntry (R : Type) where
  data : R
  status : Status

abbrev QueryCache (R : Type) := List ((String × Nat) × QEntry R)

/-- The `isinstance` chain of `query` computing the freshness token. -/
def computeStatus {R : Type} (fs : String → FStat) (eng : Engine R)
    (methods : StatusMethods) :
    StateSpec → Except QErr (Status × StatusMethods × List String)
  | .tables ts => _table_status fs eng methods ts
  | .probeSql q => .ok (Status.dictOf (eng.toDict (eng.runSql q)), methods, [q])
  | .probeFn f => .ok (f (), methods, [])
  | .invalid => .error .invalidStateSpec

/-- Embedding of `gramex.cache.query` in `_reload_status=True` mode.
Returns the result (or the propagated exception), the query cache, the
probe memo, and the list of SQL statements executed against the engine. -/
def query {R : Type} (fs : String → FStat) (eng : Engine R) (cache : QueryCache R)
    (sql : String) (state : StateSpec) (methods : StatusMethods) :
    (Except QErr (R × Bool)) × QueryCache R × StatusMethods × List String :=
  let key := (sql, eng.urlId)
  -- the stored status for the key, defaulting to Python None
  let current_status := match alookup cache key with
    | some e => e.status
    | none => Status.pyNone
  match computeStatus fs eng methods state with
  | .error e => (.error e, cache, methods, [])
  | .ok (status, methods2, log) =>
      if status ≠ current_status then
        let rows := eng.runSql sql
        (.ok (rows, true), aupdate cache key (QEntry.mk rows status), methods2,
         log ++ [sql])
      else
        -- indexing the cache for the result raises KeyError when absent
        match alookup cache key with
        | some e => (.ok (e.data, false), cache, methods2, log)
        | none => (.error .keyError, cache, methods2, log)

/-- C2 (code bug): the first call for a key whose probe function returns
Python `None` collides with the absent-entry sentinel of
the stored-status lookup default: the full sql is not executed
(empty execution log) and `_cache[key]` raises `KeyError`, whereas a
probe returning any non-`None` token does execute the sql and stores
`{rows, token}` with reloaded = true. -/
theorem query_first_call_none_status_keyerror :
    query (fun _ => (none : FStat))
        (Engine.mk "sqlite" 0 (some "db.sqlite") (fun _ => (0 : Nat))
          (fun _ => "") (fun _ => ""))
        [] "SELECT * FROM t" (StateSpec.probeFn (fun _ => Status.pyNone)) []
      = (.error .keyError, [], [], [])
    ∧ query (fun _ => (none : FStat))
        (Engine.mk "sqlite" 0 (some "db.sqlite") (fun _ => (0 : Nat))
          (fun _ => "") (fun _ => ""))
        [] "SELECT * FROM t" (StateSpec.probeFn (fun _ => Status.val "ready")) []
      = (.ok (0, true), [(("SELECT * FROM t", 0), QEntry.mk 0 (Status.val "ready"))],
         [], ["SELECT * FROM t"]) :=
  ⟨rfl, rfl⟩

/-- C3 (code bug): resolving a table name to a (database, table) pair:
one separator splits as the spec says and a bare name takes the default
database, but a name with two or more separators makes
the maxsplit-2 rsplit produce three parts, so the two-target unpacking
raises `ValueError` instead of splitting at the last separator. -/
theorem wheres_rsplit_crash :
    splitName "maindb" "a.b.c" = .error .unpackMismatch
    ∧ splitName "maindb" "dept.sales" = .ok ("dept", "sales")
    ∧ splitName "maindb" "sales" = .ok ("maindb", "sales")
    ∧ _wheres "table_schema" "table_name" "mydb" ["a.b.c"] none
      = .error .unpackMismatch :=
  ⟨rfl, rfl, rfl, rfl⟩

/-- C5: building the probe the first time for a key fails with
InvalidTableList on an empty table list or on any name that is not a
non-empty string; with UnsupportedDatabase for sqlite with no database
file; and with UnsupportedDialect for any dialect outside
mysql/mssql/postgresql/sqlite. -/
theorem table_status_build_errors {R : Type} (fs : String → FStat) (eng : Engine R)
    (methods : StatusMethods) (tables : List SqlName)
    (hfresh : alookup methods (eng.urlId, tables) = none) :
    (tables.length = 0 →
      _table_status fs eng methods tables = .error .invalidTableList)
    ∧ (tables.any badName = true →
      _table_status fs eng methods tables = .error .invalidTableList)
    ∧ (eng.dialect = "sqlite" → (eng.database = none ∨ eng.database = some "") →
      tables.length ≠ 0 → tables.any badName = false →
      _table_status fs eng methods tables = .error .unsupportedDatabase)
    ∧ (eng.dialect ≠ "mysql" → eng.dialect ≠ "mssql" → eng.dialect ≠ "postgresql" →
      eng.dialect ≠ "sqlite" → tables.length ≠ 0 → tables.any badName = false →
      _table_status fs eng methods tables = .error .unsupportedDialect) := by
  refine ⟨?_, ?_, ?_, ?_⟩
  · intro h0
    simp [_table_status, buildProbe, hfresh, h0]
  · intro hbad
    have hn0 : tables.length ≠ 0 := by
      intro h
      rw [List.length_eq_zero] at h
      subst h
      simp [List.any] at hbad
    simp [_table_status, buildProbe, hfresh, hn0, hbad]
  · intro hd hdb hn0 hgood
    rcases hdb with hdb | hdb <;>
      simp [_table_status, buildProbe, hfresh, hn0, hgood, hd, hdb]
  · intro h1 h2 h3 h4 hn0 hgood
    simp [_table_status, buildProbe, hfresh, hn0, hgood, h1, h2, h3, h4]

/-- C5 witness: the four probe-construction failures at concrete inputs:
empty table list, an empty-string name, in-memory sqlite, and an
unsupported dialect. -/
theorem table_status_build_errors_witness :
    _table_status (fun _ => (none : FStat))
        (Engine.mk "sqlite" 0 (some "db.sqlite") (fun _ => (0 : Nat))
          (fun _ => "") (fun _ => "")) [] []
      = .error .invalidTableList
    ∧ _table_status (fun _ => (none : FStat))
        (Engine.mk "sqlite" 0 (some "db.sqlite") (fun _ => (0 : Nat))
          (fun _ => "") (fun _ => "")) [] [SqlName.str ""]
      = .error .invalidTableList
    ∧ _table_status (fun _ => (none : FStat))
        (Engine.mk "sqlite" 0 none (fun _ => (0 : Nat))
          (fun _ => "") (fun _ => "")) [] [SqlName.str "t"]
      = .error .unsupportedDatabase
    ∧ _table_status (fun _ => (none : FStat))
        (Engine.mk "oracle" 0 (some "d") (fun _ => (0 : Nat))
          (fun _ => "") (fun _ => "")) [] [SqlName.str "t"]
      = .error .unsupportedDialect := by
  refine ⟨?_, ?_, ?_, ?_⟩
  · exact (table_status_build_errors (fun _ => (none : FStat))
      (Engine.mk "sqlite" 0 (some "db.sqlite") (fun _ => (0 : Nat))
        (fun _ => "") (fun _ => "")) [] [] rfl).1 rfl
  · exact (table_status_build_errors (fun _ => (none : FStat))
      (Engine.mk "sqlite" 0 (some "db.sqlite") (fun _ => (0 : Nat))
        (fun _ => "") (fun _ => "")) [] [SqlName.str ""] rfl).2.1 rfl
  · exact (table_status_build_errors (fun _ => (none : FStat))
      (Engine.mk "sqlite" 0 none (fun _ => (0 : Nat))
        (fun _ => "") (fun _ => "")) [] [SqlName.str "t"] rfl).2.2.1 rfl
      (Or.inl rfl) (by decide) rfl
  · exact (table_status_build_errors (fun _ => (none : FStat))
      (Engine.mk "oracle" 0 (some "d") (fun _ => (0 : Nat))
        (fun _ => "") (fun _ => "")) [] [SqlName.str "t"] rfl).2.2.2
      (by decide) (by decide) (by decide) (by decide) (by decide) rfl

/-- C6: a `state` of an unrecognized shape makes `query` fail with the
invalid-state-spec error immediately: no SQL is executed (empty log) and
neither the query cache nor the probe memo is touched. -/
theorem query_invalid_state {R : Type} (fs : String → FStat) (eng : Engine R)
    (cache : QueryCache R) (sql : String) (methods : StatusMethods) :
    query fs eng cache sql StateSpec.invalid methods
      = (.error .invalidStateSpec, cache, methods, []) := rfl

/-! ## The `reload_module` tracker

`reload_module` walks the module handles, resolves the backing source
file of each, and keeps a process-wide map from module name to file stat.
A handle is its `__name__` / `__file__` pair (either may be Python
`None`).  Side effects (warnings logged, in-place reloads performed)
are returned as an event list. -/

structure PyModule where
  name : Option String
  file : Option String

abbrev ModuleCache := List (String × FStat)

inductive RMEvent where
  /-- the logged warning that the path for a module was not found -/
  | warnEvt (name : Option String) (path : Option String)
  /-- the logged info line and the in-place reload of the module -/
  | reloadEvt (name : String)
deriving DecidableEq

/-- Python lowercasing of the path followed by an endswith check for the
pyc suffix; lowercasing is character-wise, so only the last four
characters matter. -/
def endsWithPyc (s : String) : Bool :=
  (s.toList.reverse.take 4).map Char.toLower = ['c', 'y', 'p', '.']

/-- the path with its final character sliced off -/
def pycTrim (s : String) : String := String.mk s.toList.dropLast

/-- Update step for one resolved module: compare `stat(path)` against
`_MODULE_CACHE.get(name, fstat)` (the current stat is its own default, so
a first observation never differs), reload on difference, store the stat. -/
def reloadTrack (fs : String → FStat) (cache : ModuleCache) (name path : String) :
    ModuleCache × List RMEvent :=
  let fstat := fs path
  let prev := (alookup cache name).getD fstat
  if fstat ≠ prev then (aupdate cache name fstat, [RMEvent.reloadEvt name])
  else (aupdate cache name fstat, [])

/-- One iteration of the `for module in modules` loop of `reload_module`. -/
def reload_one (fs : String → FStat) (cache : ModuleCache) (m : PyModule) :
    ModuleCache × List RMEvent :=
  match m.name, m.file with
  | some name, some path0 =>
      -- `if name is None or path is None or not os.path.exists(path)`
      if fs path0 = none then (cache, [RMEvent.warnEvt (some name) (some path0)])
      else if endsWithPyc path0 then
        let path := pycTrim path0
        if fs path = none then (cache, [RMEvent.warnEvt (some name) (some path)])
        else reloadTrack fs cache name path
      else reloadTrack fs cache name path0
  | _, _ => (cache, [RMEvent.warnEvt m.name m.file])

/-- Embedding of `gramex.cache.reload_module(*modules)`. -/
def reload_module (fs : String → FStat) (cache : ModuleCache) :
    List PyModule → ModuleCache × List RMEvent
  | [] => (cache, [])
  | m :: rest =>
      let r1 := reload_one fs cache m
      let r2 := reload_module fs r1.1 rest
      (r2.1, r1.2 ++ r2.2)

/-- The source path `reload_one` tracks, `none` when it is unresolvable
(missing `__name__` or `__file__`, a path that does not exist, or a
`.pyc` whose `.py` is gone). -/
def resolveFile (fs : String → FStat) (m : PyModule) : Option String :=
  match m.name, m.file with
  | some _, some p0 =>
      if fs p0 = none then none
      else if endsWithPyc p0 then
        let p := pycTrim p0
        if fs p = none then none else some p
      else some p0
  | _, _ => none

/-! ## The `Subprocess` stream readers

`Subprocess.__init__` starts one `_write(stream, callbacks, future)`
loop per output stream.  A stream is embedded as the list of successive
read results (after the list, a read returns empty), the registered
sinks as indices below `ncb` in registration order, and the observable
behavior of the loop as an event list: deliveries, the stream closing
and the single resolution of the completion future. -/

inductive SEvent where
  | deliver (sink : Nat) (content : String)
  | closeStream
  | resolve
deriving DecidableEq

/-- Line-mode `_write`: `content = stream.readline()`; a non-empty line
goes to every callback in order, an empty read closes the stream and
resolves the future, ending the loop. -/
def writeLineMode : List String → Nat → List SEvent
  | [], _ => [SEvent.closeStream, SEvent.resolve]
  | content :: rest, ncb =>
      if content.length > 0 then
        ((List.range ncb).map (fun i => SEvent.deliver i content))
          ++ writeLineMode rest ncb
      else [SEvent.closeStream, SEvent.resolve]

/-- the platform default buffer size of the standard library -/
def DEFAULT_BUFFER_SIZE : Nat := 8192

/-- a non-positive buffer size is replaced by the platform default -/
def effectiveBufferSize (buffer_size : Int) : Nat :=
  if buffer_size ≤ 0 then DEFAULT_BUFFER_SIZE else buffer_size.toNat

inductive CEvent where
  | deliver (sink : Nat) (chunk : List Nat)
  | closeStream
  | resolve
deriving DecidableEq

/-- Chunk-mode `_write`: `content = stream.read(buffer_size)`; a
non-empty chunk goes to every callback, and a read shorter than the
budget closes the stream and resolves the future, ending the loop.
`reads` lists the successive read results; after it, a read returns
empty (and `0 < bufSize`, so the loop ends there). -/
def writeChunkMode : List (List Nat) → Nat → Nat → List CEvent
  | [], _, _ => [CEvent.closeStream, CEvent.resolve]
  | c :: rest, bufSize, ncb =>
      let dels := if c.length > 0 then
        (List.range ncb).map (fun i => CEvent.deliver i c) else []
      if c.length < bufSize then dels ++ [CEvent.closeStream, CEvent.resolve]
      else dels ++ writeChunkMode rest bufSize ncb

/-- C7: for a module handle whose backing file resolves to `p`: the first
observation records `stat(p)` and performs no reload; a later call
reloads exactly once iff the current stat differs from the stored one,
and in every case stores the current stat; an unresolvable handle yields
a warning, no exception, and the loop continues with the rest. -/
theorem reload_module_tracking (fs : String → FStat) (cache : ModuleCache)
    (n p0 p : String)
    (hres : resolveFile fs (PyModule.mk (some n) (some p0)) = some p) :
    (alookup cache n = none →
      reload_one fs cache (PyModule.mk (some n) (some p0))
        = (aupdate cache n (fs p), []))
    ∧ (∀ s, alookup cache n = some s → fs p ≠ s →
      reload_one fs cache (PyModule.mk (some n) (some p0))
        = (aupdate cache n (fs p), [RMEvent.reloadEvt n]))
    ∧ (∀ s, alookup cache n = some s → fs p = s →
      reload_one fs cache (PyModule.mk (some n) (some p0))
        = (aupdate cache n (fs p), []))
    ∧ (∀ m : PyModule, resolveFile fs m = none → ∀ rest,
      ∃ w1 w2, reload_one fs cache m = (cache, [RMEvent.warnEvt w1 w2])
        ∧ reload_module fs cache (m :: rest)
          = ((reload_module fs cache rest).1,
             RMEvent.warnEvt w1 w2 :: (reload_module fs cache rest).2)) := by
  have hbase : fs p0 ≠ none ∧ ((endsWithPyc p0 = false ∧ p = p0)
      ∨ (endsWithPyc p0 = true ∧ p = pycTrim p0 ∧ fs (pycTrim p0) ≠ none)) := by
    by_cases h0 : fs p0 = none
    · simp [resolveFile, h0] at hres
    · by_cases hp : endsWithPyc p0
      · by_cases h1 : fs (pycTrim p0) = none
        · simp [resolveFile, h0, hp, h1] at hres
        · refine ⟨h0, Or.inr ⟨hp, ?_, h1⟩⟩
          simp [resolveFile, h0, hp, h1] at hres
          exact hres.symm
      · refine ⟨h0, Or.inl ⟨by simp [hp], ?_⟩⟩
        simp [resolveFile, h0, hp] at hres
        exact hres.symm
  obtain ⟨h0, hcase⟩ := hbase
  have hone : reload_one fs cache (PyModule.mk (some n) (some p0))
      = reloadTrack fs cache n p := by
    rcases hcase with ⟨hp, rfl⟩ | ⟨hp, hpe, hne⟩
    · simp [reload_one, h0, hp]
    · rw [hpe]
      simp [reload_one, h0, hp, hne]
  refine ⟨?_, ?_, ?_, ?_⟩
  · intro h
    rw [hone]
    simp [reloadTrack, h]
  · intro s h hne
    rw [hone]
    simp [reloadTrack, h, hne]
  · intro s h heq
    rw [hone]
    simp [reloadTrack, h, heq]
  · intro m hm rest
    obtain ⟨mn, mf⟩ := m
    have hone2 : ∃ w1 w2,
        reload_one fs cache (PyModule.mk mn mf) = (cache, [RMEvent.warnEvt w1 w2]) := by
      match mn, mf with
      | none, none => exact ⟨none, none, rfl⟩
      | none, some pf => exact ⟨none, some pf, rfl⟩
      | some nm, none => exact ⟨some nm, none, rfl⟩
      | some nm, some pf =>
          by_cases hf : fs pf = none
          · exact ⟨some nm, some pf, by simp [reload_one, hf]⟩
          · by_cases hp : endsWithPyc pf
            · by_cases h1 : fs (pycTrim pf) = none
              · exact ⟨some nm, some (pycTrim pf), by simp [reload_one, hf, hp, h1]⟩
              · exact absurd hm (by simp [resolveFile, hf, hp, h1])
            · exact absurd hm (by simp [resolveFile, hf, hp])
    obtain ⟨w1, w2, hw⟩ := hone2
    refine ⟨w1, w2, hw, ?_⟩
    simp [reload_module, hw]

/-- C7 witness: with only `m.py` on disk, the first call records a
baseline without reloading, a call after the stat changed reloads once,
and a handle with no `__name__`/`__file__` warns and the loop continues. -/
theorem reload_module_tracking_witness :
    reload_one (fun s => if s = "m.py" then some (1, 1) else none) []
        (PyModule.mk (some "m") (some "m.py"))
      = (aupdate [] "m" (some (1, 1)), [])
    ∧ reload_one (fun s => if s = "m.py" then some (1, 1) else none)
        [("m", some (0, 1))] (PyModule.mk (some "m") (some "m.py"))
      = (aupdate [("m", some (0, 1))] "m" (some (1, 1)), [RMEvent.reloadEvt "m"])
    ∧ ∃ w1 w2,
        reload_one (fun s => if s = "m.py" then some (1, 1) else none) []
          (PyModule.mk none none) = ([], [RMEvent.warnEvt w1 w2])
        ∧ reload_module (fun s => if s = "m.py" then some (1, 1) else none) []
            [PyModule.mk none none]
          = ((reload_module (fun s => if s = "m.py" then some (1, 1) else none) [] []).1,
             RMEvent.warnEvt w1 w2 ::
               (reload_module (fun s => if s = "m.py" then some (1, 1) else none) [] []).2) := by
  refine ⟨?_, ?_, ?_⟩
  · exact (reload_module_tracking (fun s => if s = "m.py" then some (1, 1) else none)
      [] "m" "m.py" "m.py" rfl).1 rfl
  · exact (reload_module_tracking (fun s => if s = "m.py" then some (1, 1) else none)
      [("m", some (0, 1))] "m" "m.py" "m.py" rfl).2.1 (some (0, 1)) rfl (by decide)
  · exact (reload_module_tracking (fun s => if s = "m.py" then some (1, 1) else none)
      [] "m" "m.py" "m.py" rfl).2.2.2 (PyModule.mk none none) rfl []

/-! ### Counting helpers for the stream-reader theorems -/

def isResolveS : SEvent → Bool
  | SEvent.resolve => true
  | _ => false

@[simp] theorem isResolveS_deliver (i : Nat) (c : String) :
    isResolveS (SEvent.deliver i c) = false := rfl

@[simp] theorem isResolveS_close : isResolveS SEvent.closeStream = false := rfl

@[simp] theorem isResolveS_resolve : isResolveS SEvent.resolve = true := rfl

def deliversTo (i : Nat) : SEvent → Bool
  | SEvent.deliver j _ => j == i
  | _ => false

@[simp] theorem deliversTo_deliver (i j : Nat) (c : String) :
    deliversTo i (SEvent.deliver j c) = (j == i) := rfl

@[simp] theorem deliversTo_close (i : Nat) :
    deliversTo i SEvent.closeStream = false := rfl

@[simp] theorem deliversTo_resolve (i : Nat) :
    deliversTo i SEvent.resolve = false := rfl

theorem countP_beq_range (n i : Nat) (hi : i < n) :
    (List.range n).countP (fun j => j == i) = 1 := by
  induction n with
  | zero => omega
  | succ n ih =>
      rw [List.range_succ, List.countP_append]
      by_cases h : i < n
      · rw [ih h]
        have hne : (n == i) = false := by
          rw [beq_eq_false_iff_ne]
          omega
        simp [List.countP_singleton, hne]
      · have hin : i = n := by omega
        subst hin
        have h0 : (List.range i).countP (fun j => j == i) = 0 := by
          rw [List.countP_eq_zero]
          intro a ha
          rw [List.mem_range] at ha
          simp only [beq_iff_eq]
          omega
        simp [h0, List.countP_singleton]

theorem countP_deliversTo_map (ncb i : Nat) (hi : i < ncb) (content : String) :
    ((List.range ncb).map (fun j => SEvent.deliver j content)).countP (deliversTo i)
      = 1 := by
  rw [List.countP_map]
  have hcomp : (deliversTo i ∘ fun j => SEvent.deliver j content)
      = fun j => j == i := rfl
  rw [hcomp]
  exact countP_beq_range ncb i hi

/-- C8: in line mode the reader delivers every non-empty line, in order,
to every registered sink (the event list is exactly the per-line sink
fan-out followed by the close and the single resolution), resolves the
completion future exactly once — after the last delivery — and each sink
is invoked once per line read. -/
theorem subprocess_line_mode (reads : List String) (ncb : Nat)
    (h : ∀ l ∈ reads, 0 < l.length) :
    writeLineMode reads ncb
      = (reads.flatMap (fun l => (List.range ncb).map (fun i => SEvent.deliver i l)))
        ++ [SEvent.closeStream, SEvent.resolve]
    ∧ (writeLineMode reads ncb).countP isResolveS = 1
    ∧ (∀ i, i < ncb → (writeLineMode reads ncb).countP (deliversTo i) = reads.length) := by
  induction reads with
  | nil => exact ⟨rfl, rfl, fun i _ => rfl⟩
  | cons l rest ih =>
      have hl : 0 < l.length := h l (by simp)
      have hrest : ∀ x ∈ rest, 0 < x.length := fun x hx => h x (by simp [hx])
      obtain ⟨ih1, ih2, ih3⟩ := ih hrest
      refine ⟨?_, ?_, ?_⟩
      · simp [writeLineMode, hl, ih1]
      · simp [writeLineMode, hl, List.countP_append, ih2]
      · intro i hi
        simp [writeLineMode, hl, List.countP_append, ih3 i hi,
          countP_deliversTo_map ncb i hi l, Nat.add_comm]

/-- C8 witness: three lines on stdout with one sink give exactly three
deliveries in order, then the close and the single resolution. -/
theorem subprocess_line_mode_witness :
    writeLineMode ["one", "two", "three"] 1
      = [SEvent.deliver 0 "one", SEvent.deliver 0 "two", SEvent.deliver 0 "three",
         SEvent.closeStream, SEvent.resolve]
    ∧ (writeLineMode ["one", "two", "three"] 1).countP isResolveS = 1
    ∧ (writeLineMode ["one", "two", "three"] 1).countP (deliversTo 0) = 3 := by
  have h := subprocess_line_mode ["one", "two", "three"] 1 (by decide)
  exact ⟨h.1.trans rfl, h.2.1, h.2.2 0 (by decide)⟩

def isResolveC : CEvent → Bool
  | CEvent.resolve => true
  | _ => false

@[simp] theorem isResolveC_deliver (i : Nat) (c : List Nat) :
    isResolveC (CEvent.deliver i c) = false := rfl

@[simp] theorem isResolveC_close : isResolveC CEvent.closeStream = false := rfl

@[simp] theorem isResolveC_resolve : isResolveC CEvent.resolve = true := rfl

theorem effectiveBufferSize_pos (budget : Int) : 0 < effectiveBufferSize budget := by
  unfold effectiveBufferSize DEFAULT_BUFFER_SIZE
  split
  · omega
  · omega

theorem writeChunkMode_early_stop (N ncb : Nat) (c : List Nat) (hc : c.length < N) :
    ∀ pre post, writeChunkMode (pre ++ c :: post) N ncb
      = writeChunkMode (pre ++ [c]) N ncb := by
  intro pre
  induction pre with
  | nil =>
      intro post
      simp [writeChunkMode, hc]
  | cons p pre ih =>
      intro post
      by_cases hp : p.length < N
      · simp [writeChunkMode, hp]
      · simp [writeChunkMode, hp, ih]

/-- C10: with the effective byte budget (the positive caller budget, or
the platform default for a non-positive one — always positive), every
chunk a sink receives is non-empty and at most the budget long; the
completion future resolves exactly once; and once a read comes back
short of the budget, later reads are never processed. -/
theorem subprocess_chunk_mode (budget : Int) (reads : List (List Nat)) (ncb : Nat)
    (hle : ∀ c ∈ reads, c.length ≤ effectiveBufferSize budget) :
    0 < effectiveBufferSize budget
    ∧ (∀ i ch, CEvent.deliver i ch ∈ writeChunkMode reads (effectiveBufferSize budget) ncb →
        0 < ch.length ∧ ch.length ≤ effectiveBufferSize budget)
    ∧ (writeChunkMode reads (effectiveBufferSize budget) ncb).countP isResolveC = 1
    ∧ (∀ pre c post, reads = pre ++ c :: post →
        c.length < effectiveBufferSize budget →
        writeChunkMode reads (effectiveBufferSize budget) ncb
          = writeChunkMode (pre ++ [c]) (effectiveBufferSize budget) ncb) := by
  refine ⟨effectiveBufferSize_pos budget, ?_, ?_, ?_⟩
  · induction reads with
    | nil =>
        intro i ch hmem
        simp [writeChunkMode] at hmem
    | cons c rest ih =>
        intro i ch hmem
        have hc := hle c (by simp)
        have hrest : ∀ x ∈ rest, x.length ≤ effectiveBufferSize budget :=
          fun x hx => hle x (by simp [hx])
        by_cases hlt : c.length < effectiveBufferSize budget <;>
          by_cases hpos : c.length > 0 <;>
          simp [writeChunkMode, hlt, hpos] at hmem
        · obtain ⟨j, hj, hje⟩ := hmem
          rw [← hje.2]
          exact ⟨hpos, hc⟩
        · rcases hmem with ⟨j, hj, hje⟩ | hmem
          · rw [← hje.2]
            exact ⟨hpos, hc⟩
          · exact ih hrest i ch hmem
        · exact ih hrest i ch hmem
  · induction reads with
    | nil => rfl
    | cons c rest ih =>
        have hrest : ∀ x ∈ rest, x.length ≤ effectiveBufferSize budget :=
          fun x hx => hle x (by simp [hx])
        by_cases hlt : c.length < effectiveBufferSize budget <;>
          by_cases hpos : c.length > 0 <;>
          simp [writeChunkMode, hlt, hpos, List.countP_append, ih hrest]
  · intro pre c post hsplit hshort
    rw [hsplit]
    exact writeChunkMode_early_stop (effectiveBufferSize budget) ncb c hshort pre post

/-- C10 witness: budget 2; a full 2-byte chunk, then a short 1-byte chunk
stop the loop; every delivered chunk is non-empty and within budget, the
future resolves once, and a read queued after the short one is ignored. -/
theorem subprocess_chunk_mode_witness :
    0 < effectiveBufferSize 2
    ∧ (0 < ([1, 2] : List Nat).length ∧ ([1, 2] : List Nat).length ≤ effectiveBufferSize 2)
    ∧ (writeChunkMode [[1, 2], [3], [9]] (effectiveBufferSize 2) 1).countP isResolveC = 1
    ∧ writeChunkMode [[1, 2], [3], [9]] (effectiveBufferSize 2) 1
        = writeChunkMode [[1, 2], [3]] (effectiveBufferSize 2) 1 := by
  have h := subprocess_chunk_mode 2 [[1, 2], [3], [9]] 1 (by decide)
  exact ⟨h.1, h.2.1 0 [1, 2] (by decide), h.2.2.1, h.2.2.2 [[1, 2]] [3] [[9]] rfl (by decide)⟩

end GramexCache
